import Mathlib

/-!
Shallow embedding of the email triage pipeline (src/code/src/my_script.py).

Python dictionaries over string keys are modelled as association lists
(`List (String × String)`) with Python insertion semantics: updating an
existing key keeps its position, a new key is appended.  Python exceptions
are modelled with `Option`/`Except`.  The external text-completion
capability (Gemini) is modelled as an oracle `String → Except String String`
mapping a prompt to a response or a failure.
-/

/-- ASCII whitespace characters recognised by Python str.strip and str.split. -/
def isPySpace (c : Char) : Bool :=
  c = ' ' || c = '\t' || c = '\n' || c = '\r' || c = '\x0b' || c = '\x0c'

/-- Python str.strip: drop leading and trailing whitespace. -/
def pyStrip (s : String) : String :=
  String.mk (((s.data.dropWhile isPySpace).reverse.dropWhile isPySpace).reverse)

/-- Lookup in a Python-style dict (association list): d[k] when present. -/
def dictGet? (d : List (String × String)) (k : String) : Option String :=
  (d.find? (fun p => p.1 = k)).map (fun p => p.2)

/-- Python dict assignment d[k] = v: overwrite in place when the key exists,
append otherwise. -/
def dictInsert (d : List (String × String)) (k v : String) : List (String × String) :=
  if d.any (fun p => p.1 = k) then
    d.map (fun p => if p.1 = k then (k, v) else p)
  else
    d ++ [(k, v)]

/-- Line-boundary characters of Python str.splitlines. -/
def isLineBreak (c : Char) : Bool :=
  c = '\n' || c = '\r' || c = '\x0b' || c = '\x0c' ||
  c = '\x1c' || c = '\x1d' || c = '\x1e' || c = '\x85' ||
  c = '\u2028' || c = '\u2029'

/-- Worker for splitlines: acc holds the current line reversed. -/
def splitlinesAux : List Char → List Char → List String
  | [], acc => if acc.isEmpty then [] else [String.mk acc.reverse]
  | '\r' :: '\n' :: rest, acc => String.mk acc.reverse :: splitlinesAux rest []
  | c :: rest, acc =>
    if isLineBreak c then String.mk acc.reverse :: splitlinesAux rest []
    else splitlinesAux rest (c :: acc)

/-- Python str.splitlines: split on line boundaries, no trailing empty line. -/
def splitlines (s : String) : List String :=
  splitlinesAux s.data []

/-- Python line.split(sep, 1) restricted to a character separator: text before
the first occurrence and text after it, or none when the separator is absent
(modelling the "sep in line" membership test). -/
def splitOnFirstColon : List Char → Option (List Char × List Char)
  | [] => none
  | c :: rest =>
    if c = ':' then some ([], rest)
    else (splitOnFirstColon rest).map (fun p => (c :: p.1, p.2))

/-- One step of re.sub(r"<[^>]+>", "", s) realised as a scanner.  The second
argument is `none` while scanning outside a candidate tag and `some buf` after
an unmatched opening angle bracket, where buf holds (reversed) the characters
read since it.  A closing bracket with a nonempty buffer deletes the whole
span, matching the regular expression which requires at least one
non-bracket character inside the tag. -/
def stripTagsAux : List Char → Option (List Char) → List Char
  | [], none => []
  | [], some buf => '<' :: buf.reverse
  | c :: rest, none =>
    if c = '<' then stripTagsAux rest (some [])
    else c :: stripTagsAux rest none
  | c :: rest, some buf =>
    if c = '>' then
      if buf.isEmpty then '<' :: '>' :: stripTagsAux rest none
      else stripTagsAux rest none
    else stripTagsAux rest (some (c :: buf))

/-- Removal of markup tags: re.sub(r"<[^>]+>", "", s) at character level. -/
def stripTags (cs : List Char) : List Char :=
  stripTagsAux cs none

/-- Python s.split() (no separator): maximal runs of non-whitespace, empties
dropped.  acc holds the current word reversed. -/
def pySplit : List Char → List Char → List (List Char)
  | [], acc => if acc.isEmpty then [] else [acc.reverse]
  | c :: rest, acc =>
    if isPySpace c then
      if acc.isEmpty then pySplit rest []
      else acc.reverse :: pySplit rest []
    else pySplit rest (c :: acc)

/-- Python " ".join(words) at character level. -/
def joinWords : List (List Char) → List Char
  | [] => []
  | w :: [] => w
  | w :: v :: ws => w ++ ' ' :: joinWords (v :: ws)

/-- clean_email_content: strip markup tags with re.sub(r"<[^>]+>", "", s),
then collapse whitespace with " ".join(s.split()). -/
def clean_email_content (email_content : String) : String :=
  let cleaned_text := stripTags email_content.data
  String.mk (joinWords (pySplit cleaned_text []))


/-- Fixed category vocabulary (EMAIL_CATEGORIES). -/
def EMAIL_CATEGORIES : List String :=
  ["Account Inquiry", "Transaction Dispute", "Loan Application", "Mortgage Inquiry",
   "Fraud Report", "Service Request", "Complaint", "Feedback", "General Inquiry"]

/-- Fixed entity-kind vocabulary (EMAIL_ENTITIES). -/
def EMAIL_ENTITIES : List String :=
  ["Account Number", "Transaction ID", "Customer Name", "Phone Number",
   "Email Address", "Date", "Amount", "Product Type"]

/-- Fixed intent vocabulary (EMAIL_INTENTS). -/
def EMAIL_INTENTS : List String :=
  ["Request Information", "Report a Problem", "Apply for a Service",
   "Provide Feedback", "Seek Help"]

/-- Fixed sentiment vocabulary (EMAIL_SENTIMENTS). -/
def EMAIL_SENTIMENTS : List String := ["Positive", "Negative", "Neutral"]

/-- The oracle type standing for client.chat_model.predict: a prompt either
yields a response text or raises (modelled as Except.error). -/
def Llm : Type := String → Except String String

/-- Prompt built by classify_email. -/
def classifyPrompt (email_content : String) : String :=
  "\n    Classify the following email into one of these categories: " ++
    String.intercalate ", " EMAIL_CATEGORIES ++
    ".\n    Provide *only* the category name.\n    Email: " ++ email_content ++ "\n    "

/-- Prompt built by extract_entities. -/
def entitiesPrompt (email_content : String) : String :=
  "\n    Extract the following information from the email. If a piece of information is not present, output \x27N/A\x27.\n    " ++
    String.intercalate "\n" (EMAIL_ENTITIES.map (fun entity => entity ++ ":")) ++
    "\n    Email: " ++ email_content ++ "\n    "

/-- Prompt built by recognize_intent. -/
def intentPrompt (email_content : String) : String :=
  "\n    What is the primary intent of this email? Choose one of the following: " ++
    String.intercalate ", " EMAIL_INTENTS ++ ".\n    Email: " ++ email_content ++ "\n    "

/-- Prompt built by analyze_sentiment. -/
def sentimentPrompt (email_content : String) : String :=
  "\n    What is the sentiment of this email? Choose one of the following: " ++
    String.intercalate ", " EMAIL_SENTIMENTS ++ ".\n    Email: " ++ email_content ++ "\n    "

/-- Prompt built by summarize_email. -/
def summaryPrompt (email_content : String) : String :=
  "\n    Summarize the following email in three sentences or less:\n    " ++
    email_content ++ "\n    "

/-- classify_email: ask the capability for a category; on any exception fall
back to the default category "General Inquiry". -/
def classify_email (llm : Llm) (email_content : String) : String :=
  match llm (classifyPrompt email_content) with
  | Except.ok response => pyStrip response
  | Except.error _ => "General Inquiry"

/-- extract_entities: ask the capability, split the response into lines, split
each line containing a colon on the first colon into a trimmed key/value pair
accumulated into a dict; on any exception fall back to the dict mapping every
known entity kind to "N/A". -/
def extract_entities (llm : Llm) (email_content : String) : List (String × String) :=
  match llm (entitiesPrompt email_content) with
  | Except.ok response =>
    (splitlines response).foldl (fun extracted_entities line =>
      match splitOnFirstColon line.data with
      | some kv =>
        dictInsert extracted_entities (pyStrip (String.mk kv.1)) (pyStrip (String.mk kv.2))
      | none => extracted_entities) []
  | Except.error _ => EMAIL_ENTITIES.map (fun entity => (entity, "N/A"))

/-- recognize_intent: ask the capability for an intent; on any exception fall
back to the default "General Inquiry" (the category label, as in the source). -/
def recognize_intent (llm : Llm) (email_content : String) : String :=
  match llm (intentPrompt email_content) with
  | Except.ok response => pyStrip response
  | Except.error _ => "General Inquiry"

/-- analyze_sentiment: ask the capability for a sentiment; on any exception
fall back to the default "Neutral". -/
def analyze_sentiment (llm : Llm) (email_content : String) : String :=
  match llm (sentimentPrompt email_content) with
  | Except.ok response => pyStrip response
  | Except.error _ => "Neutral"

/-- summarize_email: ask the capability for a summary; on any exception fall
back to the fixed placeholder. -/
def summarize_email (llm : Llm) (email_content : String) : String :=
  match llm (summaryPrompt email_content) with
  | Except.ok response => pyStrip response
  | Except.error _ => "Summary not available."

/-- Parameters of the create_ticket action. -/
structure TicketAction where
  system : String
  priority : String
deriving DecidableEq, Repr

/-- Parameters of the send_acknowledgment action. -/
structure AckAction where
  type : String
  to_addr : String
deriving DecidableEq, Repr

/-- The actions dict built by route_email: each action name appears at most
once, so the dict is a record of optional entries, all absent initially. -/
structure Actions where
  create_ticket : Option TicketAction := none
  send_acknowledgment : Option AckAction := none
  escalate : Option Bool := none
deriving DecidableEq, Repr

/-- route_email: deterministic routing keyed on the category, with the
sentiment as a secondary modifier for complaints.  Reading the sender address
out of the metadata dict can raise KeyError in Python, so the result is an
Option, none standing for the uncaught KeyError. -/
def route_email (category : String) (entities : List (String × String)) (intent : String)
    (sentiment : String) (summary : String) (email_metadata : List (String × String)) :
    Option (String × Actions) :=
  if category = "Fraud Report" then
    match dictGet? email_metadata "sender_email" with
    | none => none
    | some sender => some ("Fraud Department",
        { create_ticket := some { system := "CRM", priority := "High" },
          send_acknowledgment := some { type := "FraudReportReceived", to_addr := sender } })
  else if category = "Loan Application" then
    some ("Loan Department",
      { create_ticket := some { system := "LoanOriginationSystem", priority := "Medium" } })
  else if category = "Account Inquiry" then
    match dictGet? email_metadata "sender_email" with
    | none => none
    | some sender => some ("Customer Service Department",
        { send_acknowledgment := some { type := "AccountInquiryReceived", to_addr := sender } })
  else if category = "Transaction Dispute" then
    some ("Dispute Resolution Department",
      { create_ticket := some { system := "DisputeTrackingSystem", priority := "High" } })
  else if category = "Mortgage Inquiry" then
    some ("Mortgage Department",
      { create_ticket := some { system := "MortgageOriginationSystem", priority := "Medium" } })
  else if category = "Service Request" then
    some ("Customer Service Department",
      { create_ticket := some { system := "CRM", priority := "Medium" } })
  else if category = "Complaint" then
    some ("Customer Relations Department",
      { create_ticket := some { system := "CRM", priority := "High" },
        escalate := if sentiment = "Negative" then some true else none })
  else if category = "Feedback" then
    some ("Product Development Department", {})
  else if category = "General Inquiry" then
    some ("Customer Service Department", {})
  else
    some ("General Inquiry Department", {})

/-- calculate_similarity_score: walk the expected dict, counting expected keys
present in the extracted dict and, among those, the exact value matches;
return match_count / total_count, or 0.0 when total_count is zero.  The Python
float result is modelled exactly as a rational. -/
def calculate_similarity_score (extracted_entities expected_entities : List (String × String)) :
    Rat :=
  let counts := expected_entities.foldl (fun (mc : Nat × Nat) kv =>
    match dictGet? extracted_entities kv.1 with
    | none => mc
    | some v => ((if v = kv.2 then mc.1 + 1 else mc.1), mc.2 + 1)) (0, 0)
  if counts.2 = 0 then 0 else (counts.1 : Rat) / (counts.2 : Rat)


/-- A body part of a parsed message, in the order email_message.walk() visits
it: its declared content type, its decoded payload text, and the filename it
carries, if any. -/
structure PyEmailPart where
  content_type : String
  payload : String
  filename : Option String := none
deriving DecidableEq, Repr

/-- A message as produced by BytesParser.parsebytes: header fields, whether it
is multipart, its sub-parts in walk order, and the payload used directly when
it is not multipart.  Payload decoding with errors="ignore" is total, so
payloads are carried as already-decoded text. -/
structure PyEmailMessage where
  headers : List (String × String)
  is_multipart : Bool
  parts : List PyEmailPart
  payload : String
deriving DecidableEq, Repr

/-- Python str(x) on an optional header value: str(None) is the literal
string "None". -/
def pyStr : Option String → String
  | some s => s
  | none => "None"

/-- Metadata dict built by extract_email_metadata (sender_email, subject,
timestamp, attachments). -/
structure PyEmailMetadata where
  sender_email : String
  subject : String
  timestamp : String
  attachments : List String
deriving DecidableEq, Repr

/-- extract_email_metadata: read From, Subject and Date headers (missing ones
stringify to "None") and, for multipart messages, collect the filenames of
all parts carrying one, in walk order. -/
def extract_email_metadata (email_message : PyEmailMessage) : PyEmailMetadata :=
  { sender_email := pyStr (dictGet? email_message.headers "From"),
    subject := pyStr (dictGet? email_message.headers "Subject"),
    timestamp := pyStr (dictGet? email_message.headers "Date"),
    attachments :=
      if email_message.is_multipart then
        email_message.parts.filterMap (fun part => part.filename)
      else [] }

/-- The string-valued entries of the metadata dict, as passed to route_email. -/
def metadataDict (m : PyEmailMetadata) : List (String × String) :=
  [("sender_email", m.sender_email), ("subject", m.subject), ("timestamp", m.timestamp)]

/-- Body selection in process_email: for a multipart message take the payload
of the first text/plain part of the walk; when no such part exists the local
variable email_content is never assigned and the following .decode raises
UnboundLocalError (modelled as the error case).  A non-multipart message uses
its payload directly. -/
def select_body (email_message : PyEmailMessage) : Except String String :=
  if email_message.is_multipart then
    match email_message.parts.find? (fun part => part.content_type = "text/plain") with
    | some part => Except.ok part.payload
    | none => Except.error "UnboundLocalError: email_content"
  else
    Except.ok email_message.payload

/-- Input consumed by process_email for one message: the outcome of parsing
its raw bytes (Except.error for a parser exception) together with the
text-completion oracle in effect. -/
structure MsgInput where
  parseResult : Except String PyEmailMessage
  llm : Llm

/-- Everything process_email computes and logs for one successfully processed
message. -/
structure PipelineReport where
  email_metadata : PyEmailMetadata
  category : String
  entities : List (String × String)
  intent : String
  sentiment : String
  summary : String
  destination : String
  actions : Actions
  similarity_score : Rat

/-- The body of process_email's try block: parse, extract metadata, select
and clean the body, run the five analyses, route, and score against the
hardcoded expected entities.  Any uncaught Python exception on the way is an
Except.error. -/
def pipeline (m : MsgInput) : Except String PipelineReport :=
  match m.parseResult with
  | Except.error e => Except.error e
  | Except.ok email_message =>
    let email_metadata := extract_email_metadata email_message
    match select_body email_message with
    | Except.error e => Except.error e
    | Except.ok email_content =>
      let cleaned_content := clean_email_content email_content
      let category := classify_email m.llm cleaned_content
      let entities := extract_entities m.llm cleaned_content
      let intent := recognize_intent m.llm cleaned_content
      let sentiment := analyze_sentiment m.llm cleaned_content
      let summary := summarize_email m.llm cleaned_content
      match route_email category entities intent sentiment summary
          (metadataDict email_metadata) with
      | none => Except.error "KeyError: sender_email"
      | some routed =>
        let expected_entities : List (String × String) :=
          [("Account Number", "1234567890"), ("Transaction ID", "N/A"),
           ("Customer Name", "John Smith"), ("Phone Number", "555-123-4567"),
           ("Email Address", "customer@example.com"), ("Date", "2024-07-24T10:00:00"),
           ("Amount", "1000"), ("Product Type", "N/A")]
        let similarity_score := calculate_similarity_score entities expected_entities
        Except.ok
          { email_metadata := email_metadata, category := category, entities := entities,
            intent := intent, sentiment := sentiment, summary := summary,
            destination := routed.1, actions := routed.2,
            similarity_score := similarity_score }

/-- Outcome of handling one message at the top level: a report when the try
block succeeds, a logged failure when its catch-all except fires, and a
logged read failure when main's per-file try catches a file error. -/
inductive ProcessResult where
  | processed : PipelineReport → ProcessResult
  | failed : String → ProcessResult
  | read_failed : String → ProcessResult

/-- process_email: the whole body runs inside try/except Exception, so every
pipeline exception is absorbed into a logged failure and nothing propagates. -/
def process_email (m : MsgInput) : ProcessResult :=
  match pipeline m with
  | Except.ok report => ProcessResult.processed report
  | Except.error e => ProcessResult.failed e

/-- The body of main's per-file loop: reading the file can fail (caught by
the loop's own try), otherwise the message is handed to process_email. -/
def main_loop_body (file : Except String MsgInput) : ProcessResult :=
  match file with
  | Except.error e => ProcessResult.read_failed e
  | Except.ok m => process_email m

/-- main's loop over the .eml files of the storage directory. -/
def main_loop (files : List (Except String MsgInput)) : List ProcessResult :=
  files.map main_loop_body

/-- C1: for every category string, entity mapping, intent, sentiment, summary
and metadata containing a sender address, route_email returns exactly the
destination and actions of the table row keyed by the category, with the
Complaint row escalating exactly when the sentiment is Negative, and any
out-of-vocabulary category routed to the General Inquiry Department with no
actions. -/
theorem route_email_matches_table (entities : List (String × String))
    (intent summary sentiment : String) (md : List (String × String)) (sender : String)
    (hs : dictGet? md "sender_email" = some sender) :
    route_email "Fraud Report" entities intent sentiment summary md =
      some ("Fraud Department",
        { create_ticket := some { system := "CRM", priority := "High" },
          send_acknowledgment := some { type := "FraudReportReceived", to_addr := sender } }) ∧
    route_email "Loan Application" entities intent sentiment summary md =
      some ("Loan Department",
        { create_ticket := some { system := "LoanOriginationSystem", priority := "Medium" } }) ∧
    route_email "Account Inquiry" entities intent sentiment summary md =
      some ("Customer Service Department",
        { send_acknowledgment := some { type := "AccountInquiryReceived", to_addr := sender } }) ∧
    route_email "Transaction Dispute" entities intent sentiment summary md =
      some ("Dispute Resolution Department",
        { create_ticket := some { system := "DisputeTrackingSystem", priority := "High" } }) ∧
    route_email "Mortgage Inquiry" entities intent sentiment summary md =
      some ("Mortgage Department",
        { create_ticket := some { system := "MortgageOriginationSystem", priority := "Medium" } }) ∧
    route_email "Service Request" entities intent sentiment summary md =
      some ("Customer Service Department",
        { create_ticket := some { system := "CRM", priority := "Medium" } }) ∧
    route_email "Complaint" entities intent "Negative" summary md =
      some ("Customer Relations Department",
        { create_ticket := some { system := "CRM", priority := "High" },
          escalate := some true }) ∧
    (sentiment ≠ "Negative" →
      route_email "Complaint" entities intent sentiment summary md =
        some ("Customer Relations Department",
          { create_ticket := some { system := "CRM", priority := "High" },
            escalate := none })) ∧
    route_email "Feedback" entities intent sentiment summary md =
      some ("Product Development Department", {}) ∧
    route_email "General Inquiry" entities intent sentiment summary md =
      some ("Customer Service Department", {}) ∧
    (∀ category, category ∉ EMAIL_CATEGORIES →
      route_email category entities intent sentiment summary md =
        some ("General Inquiry Department", {})) := by
  refine ⟨by simp [route_email, hs], by simp [route_email], by simp [route_email, hs],
    by simp [route_email], by simp [route_email], by simp [route_email],
    by simp [route_email], fun hneg => by simp [route_email, hneg],
    by simp [route_email], by simp [route_email], ?_⟩
  intro category hc
  simp only [EMAIL_CATEGORIES, List.mem_cons, List.not_mem_nil, or_false, not_or] at hc
  obtain ⟨h1, h2, h3, h4, h5, h6, h7, h8, h9⟩ := hc
  simp [route_email, h1, h2, h3, h4, h5, h6, h7, h8, h9]

/-- Witness for route_email_matches_table at a concrete metadata dict. -/
theorem route_email_matches_table_witness :
    route_email "Fraud Report" [] "i" "Positive" "s" [("sender_email", "a@b.com")] =
      some ("Fraud Department",
        { create_ticket := some { system := "CRM", priority := "High" },
          send_acknowledgment :=
            some { type := "FraudReportReceived", to_addr := "a@b.com" } }) ∧
    route_email "Feedback" [] "i" "Positive" "s" [("sender_email", "a@b.com")] =
      some ("Product Development Department", {}) :=
  have h := route_email_matches_table [] "i" "s" "Positive"
    [("sender_email", "a@b.com")] "a@b.com" (by decide)
  ⟨h.1, h.2.2.2.2.2.2.2.2.1⟩

/-- C2: whenever the external text-completion call raises, each of the five
analysis operations independently absorbs the failure and returns its fixed
default: General Inquiry for the category, General Inquiry for the intent
(reusing the category label), Neutral for the sentiment, every known entity
kind mapped to N/A for the entities, and the fixed placeholder summary. -/
theorem analysis_defaults_on_failure (llm : Llm) (email_content err : String) :
    (llm (classifyPrompt email_content) = Except.error err →
      classify_email llm email_content = "General Inquiry") ∧
    (llm (intentPrompt email_content) = Except.error err →
      recognize_intent llm email_content = "General Inquiry") ∧
    (llm (sentimentPrompt email_content) = Except.error err →
      analyze_sentiment llm email_content = "Neutral") ∧
    (llm (entitiesPrompt email_content) = Except.error err →
      extract_entities llm email_content =
        [("Account Number", "N/A"), ("Transaction ID", "N/A"), ("Customer Name", "N/A"),
         ("Phone Number", "N/A"), ("Email Address", "N/A"), ("Date", "N/A"),
         ("Amount", "N/A"), ("Product Type", "N/A")]) ∧
    (llm (summaryPrompt email_content) = Except.error err →
      summarize_email llm email_content = "Summary not available.") :=
  ⟨fun h => by simp [classify_email, h],
   fun h => by simp [recognize_intent, h],
   fun h => by simp [analyze_sentiment, h],
   fun h => by simp [extract_entities, h, EMAIL_ENTITIES],
   fun h => by simp [summarize_email, h]⟩

/-- Witness for analysis_defaults_on_failure with an always-failing oracle. -/
theorem analysis_defaults_on_failure_witness :
    classify_email (fun _ => Except.error "boom") "" = "General Inquiry" ∧
    recognize_intent (fun _ => Except.error "boom") "" = "General Inquiry" ∧
    analyze_sentiment (fun _ => Except.error "boom") "" = "Neutral" ∧
    extract_entities (fun _ => Except.error "boom") "" =
      [("Account Number", "N/A"), ("Transaction ID", "N/A"), ("Customer Name", "N/A"),
       ("Phone Number", "N/A"), ("Email Address", "N/A"), ("Date", "N/A"),
       ("Amount", "N/A"), ("Product Type", "N/A")] ∧
    summarize_email (fun _ => Except.error "boom") "" = "Summary not available." :=
  have h := analysis_defaults_on_failure (fun _ => Except.error "boom") "" "boom"
  ⟨h.1 rfl, h.2.1 rfl, h.2.2.1 rfl, h.2.2.2.1 rfl, h.2.2.2.2 rfl⟩

/-- C3: extract_entities parses the capability response line by line, splits
each colon-bearing line on the first colon into a trimmed key and value,
drops lines without a colon, lets a duplicate key overwrite the earlier
value, and keeps keys outside the fixed entity vocabulary; on the response
"Account Number: 123\nJunk line\nDate:2024-01-01" the result is exactly
the two-entry mapping of the claim. -/
theorem extract_entities_parsing :
    extract_entities (fun _ => Except.ok "Account Number: 123\nJunk line\nDate:2024-01-01") "" =
      [("Account Number", "123"), ("Date", "2024-01-01")] ∧
    extract_entities (fun _ => Except.ok "Account Number: 1\nAccount Number: 2") "" =
      [("Account Number", "2")] ∧
    extract_entities (fun _ => Except.ok "Ticket Priority: urgent") "" =
      [("Ticket Priority", "urgent")] ∧
    "Ticket Priority" ∉ EMAIL_ENTITIES :=
  ⟨by decide, by decide, by decide, by decide⟩

/-- C5 counterexample: with a metadata mapping lacking the sender_email key,
route_email on a Fraud Report raises KeyError (modelled as none) instead of
returning a destination/actions pair, so route_email is not total. -/
theorem route_email_keyerror_counterexample :
    route_email "Fraud Report" [] "Request Information" "Neutral" "s" [] = none := rfl

set_option maxHeartbeats 1000000 in
/-- C5 (amended): route_email returns a destination/actions pair whenever the
metadata mapping contains the sender_email key, and also, for every metadata
mapping, whenever the category is neither Fraud Report nor Account Inquiry
(the two rows that read the sender address). -/
theorem route_email_total_amended (category intent sentiment summary : String)
    (entities md : List (String × String))
    (h : (dictGet? md "sender_email").isSome = true ∨
         (category ≠ "Fraud Report" ∧ category ≠ "Account Inquiry")) :
    (route_email category entities intent sentiment summary md).isSome = true := by
  rcases h with h | ⟨h1, h2⟩
  · obtain ⟨s, hs⟩ := Option.isSome_iff_exists.mp h
    unfold route_email
    split_ifs <;> simp [hs]
  · unfold route_email
    split_ifs <;> simp_all

/-- Witness for route_email_total_amended at a concrete category. -/
theorem route_email_total_amended_witness :
    (route_email "Feedback" [] "i" "s" "m" []).isSome = true :=
  route_email_total_amended "Feedback" "i" "s" "m" [] []
    (Or.inr ⟨by decide, by decide⟩)

/-- C6: per-message fault isolation: the main loop produces one outcome per
input file with each message handled independently of the rest, and any
exception escaping the per-message pipeline is absorbed by process_email's
catch-all into a failure outcome rather than propagating. -/
theorem process_email_fault_isolation
    (files pre post : List (Except String MsgInput)) (f : Except String MsgInput)
    (m : MsgInput) (e : String) :
    (main_loop files).length = files.length ∧
    (pipeline m = Except.error e → process_email m = ProcessResult.failed e) ∧
    main_loop (pre ++ f :: post) =
      main_loop pre ++ main_loop_body f :: main_loop post := by
  refine ⟨by simp [main_loop], fun h => by simp [process_email, h], by simp [main_loop]⟩

/-- Witness for process_email_fault_isolation on a message whose parse fails. -/
theorem process_email_fault_isolation_witness :
    process_email ⟨Except.error "bad parse", fun _ => Except.error "x"⟩ =
      ProcessResult.failed "bad parse" :=
  (process_email_fault_isolation [] [] [] (Except.error "")
    ⟨Except.error "bad parse", fun _ => Except.error "x"⟩ "bad parse").2.1 rfl

/-- C7: noninterference of inert inputs: two route_email calls agreeing on
category, sentiment and metadata return the same decision whatever their
entities, intent and summary arguments are. -/
theorem route_email_ignores_intent_summary_entities
    (category sentiment : String) (md : List (String × String))
    (entities1 entities2 : List (String × String))
    (intent1 intent2 summary1 summary2 : String) :
    route_email category entities1 intent1 sentiment summary1 md =
      route_email category entities2 intent2 sentiment summary2 md := rfl

/-- C10: a multipart message with no text/plain part leaves the body variable
unassigned, so the decode raises (modelled by select_body returning the
UnboundLocalError) and process_email reports the message as failed instead of
analysing it. -/
theorem multipart_without_plaintext_fails
    (email_message : PyEmailMessage) (llm : Llm)
    (hmp : email_message.is_multipart = true)
    (hnp : ∀ part ∈ email_message.parts, part.content_type ≠ "text/plain") :
    select_body email_message = Except.error "UnboundLocalError: email_content" ∧
    process_email ⟨Except.ok email_message, llm⟩ =
      ProcessResult.failed "UnboundLocalError: email_content" := by
  have hfind : email_message.parts.find? (fun part => part.content_type = "text/plain")
      = none := by
    rw [List.find?_eq_none]
    intro p hp
    simp [hnp p hp]
  have hsel : select_body email_message = Except.error "UnboundLocalError: email_content" := by
    simp [select_body, hmp, hfind]
  exact ⟨hsel, by simp [process_email, pipeline, hsel]⟩

/-- Witness for multipart_without_plaintext_fails on a concrete message. -/
theorem multipart_without_plaintext_fails_witness :
    select_body ⟨[], true, [⟨"text/html", "x", none⟩], ""⟩ =
      Except.error "UnboundLocalError: email_content" ∧
    process_email ⟨Except.ok ⟨[], true, [⟨"text/html", "x", none⟩], ""⟩,
        fun _ => Except.error "e"⟩ =
      ProcessResult.failed "UnboundLocalError: email_content" :=
  multipart_without_plaintext_fails ⟨[], true, [⟨"text/html", "x", none⟩], ""⟩
    (fun _ => Except.error "e") rfl (by decide)

/-- Number of keys of the expected mapping also present in the extracted
mapping (the loop counter total_count). -/
def totalCount (extracted expected : List (String × String)) : Nat :=
  expected.countP (fun kv => (dictGet? extracted kv.1).isSome)

/-- Number of keys of the expected mapping whose extracted value equals the
expected value exactly (the loop counter match_count). -/
def matchCount (extracted expected : List (String × String)) : Nat :=
  expected.countP (fun kv =>
    match dictGet? extracted kv.1 with
    | none => false
    | some v => v = kv.2)

/-- The fold inside calculate_similarity_score accumulates exactly the two
counters matchCount and totalCount. -/
theorem similarity_foldl (extracted : List (String × String)) :
    ∀ (expected : List (String × String)) (mc : Nat × Nat),
      expected.foldl (fun (mc : Nat × Nat) kv =>
        match dictGet? extracted kv.1 with
        | none => mc
        | some v => ((if v = kv.2 then mc.1 + 1 else mc.1), mc.2 + 1)) mc =
      (mc.1 + matchCount extracted expected, mc.2 + totalCount extracted expected) := by
  intro expected
  induction expected with
  | nil => intro mc; simp [matchCount, totalCount]
  | cons kv rest ih =>
    intro mc
    simp only [List.foldl_cons]
    cases h : dictGet? extracted kv.1 with
    | none =>
      rw [ih]
      simp [matchCount, totalCount, List.countP_cons, h]
    | some v =>
      rw [ih]
      by_cases hv : v = kv.2 <;>
        simp [matchCount, totalCount, List.countP_cons, h, hv] <;> omega

/-- C4: calculate_similarity_score equals matchCount/totalCount (0 when
totalCount is 0), where totalCount counts the expected keys present in the
extracted mapping and matchCount those whose values agree exactly; hence the
score lies in [0,1]; the two concrete instances of the claim evaluate to 1
and 0 respectively. -/
theorem calculate_similarity_score_spec
    (extracted expected : List (String × String)) :
    calculate_similarity_score extracted expected =
      (if totalCount extracted expected = 0 then 0
       else (matchCount extracted expected : Rat) / (totalCount extracted expected : Rat)) ∧
    0 ≤ calculate_similarity_score extracted expected ∧
    calculate_similarity_score extracted expected ≤ 1 ∧
    calculate_similarity_score [("Account Number", "123")]
      [("Account Number", "123"), ("Date", "N/A")] = 1 ∧
    calculate_similarity_score [] [] = 0 := by
  have hmt : matchCount extracted expected ≤ totalCount extracted expected := by
    apply List.countP_mono_left
    intro kv _ hkv
    cases h : dictGet? extracted kv.1 with
    | none => rw [h] at hkv; simp at hkv
    | some v => simp [h]
  have heq : calculate_similarity_score extracted expected =
      (if totalCount extracted expected = 0 then 0
       else (matchCount extracted expected : Rat) / (totalCount extracted expected : Rat)) := by
    unfold calculate_similarity_score
    rw [similarity_foldl]
    simp
  refine ⟨heq, ?_, ?_, ?_, rfl⟩
  · rw [heq]
    split
    · exact le_refl 0
    · positivity
  · rw [heq]
    split
    · exact zero_le_one
    · rename_i ht
      rw [div_le_one (by positivity)]
      exact_mod_cast hmt
  · show (if (1 : Nat) = 0 then (0 : Rat) else ((1 : Nat) : Rat) / ((1 : Nat) : Rat)) = 1
    norm_num

/-- Suffix after the first closing angle bracket, if any. -/
def afterGt : List Char → Option (List Char)
  | [] => none
  | c :: rest => if c = '>' then some rest else afterGt rest

/-- End of a regex tag match started by an opening bracket: the suffix after
the first closing bracket, provided at least one non-bracket character comes
first (the + in <[^>]+>). -/
def tagEnd : List Char → Option (List Char)
  | [] => none
  | c :: rest => if c = '>' then none else afterGt rest

/-- Invariant of tag-stripped text: every opening angle bracket is either
immediately closed (the unmatched "<>") or is followed by no closing bracket
at all, so the tag pattern matches nowhere. -/
def okTags : List Char → Bool
  | [] => true
  | c :: rest => (if c = '<' then (tagEnd rest).isNone else true) && okTags rest

theorem afterGt_eq_none (l : List Char) : afterGt l = none ↔ '>' ∉ l := by
  induction l with
  | nil => simp [afterGt]
  | cons c rest ih =>
    by_cases hc : c = '>'
    · simp [afterGt, hc]
    · simp [afterGt, hc, ih, Ne.symm hc]

theorem tagEnd_none_of_no_gt (l : List Char) (h : '>' ∉ l) : tagEnd l = none := by
  cases l with
  | nil => rfl
  | cons c rest =>
    simp only [List.mem_cons, not_or] at h
    simp [tagEnd, h.1, (afterGt_eq_none rest).mpr h.2]

theorem tagEnd_eq_none_cases (l : List Char) (h : tagEnd l = none) :
    l = [] ∨ (∃ r, l = '>' :: r) ∨ '>' ∉ l := by
  cases l with
  | nil => exact Or.inl rfl
  | cons c rest =>
    by_cases hc : c = '>'
    · exact Or.inr (Or.inl ⟨rest, by rw [hc]⟩)
    · simp only [tagEnd, hc, if_false] at h
      exact Or.inr (Or.inr (by simp [Ne.symm hc, (afterGt_eq_none rest).mp h]))

theorem okTags_of_no_gt (l : List Char) (h : '>' ∉ l) : okTags l = true := by
  induction l with
  | nil => rfl
  | cons c rest ih =>
    simp only [List.mem_cons, not_or] at h
    simp [okTags, ih h.2, tagEnd_none_of_no_gt rest h.2]

theorem stripTagsAux_some_no_gt (rest : List Char) :
    ∀ buf, '>' ∉ rest → stripTagsAux rest (some buf) = '<' :: (buf.reverse ++ rest) := by
  induction rest with
  | nil => intro buf _; simp [stripTagsAux]
  | cons c r ih =>
    intro buf h
    simp only [List.mem_cons, not_or] at h
    simp [stripTagsAux, Ne.symm h.1, ih (c :: buf) h.2]

theorem okTags_stripTagsAux (cs : List Char) :
    okTags (stripTagsAux cs none) = true ∧
    ∀ buf, '>' ∉ buf → okTags (stripTagsAux cs (some buf)) = true := by
  induction cs with
  | nil =>
    refine ⟨rfl, fun buf hbuf => ?_⟩
    have hrev : '>' ∉ buf.reverse := by simpa using hbuf
    simp [stripTagsAux, okTags, okTags_of_no_gt _ hrev, tagEnd_none_of_no_gt _ hrev]
  | cons c rest ih =>
    constructor
    · by_cases hc : c = '<'
      · simpa [stripTagsAux, hc] using ih.2 [] (by simp)
      · simp [stripTagsAux, hc, okTags, ih.1]
    · intro buf hbuf
      by_cases hc : c = '>'
      · cases buf with
        | nil => simp [stripTagsAux, hc, okTags, tagEnd, ih.1]
        | cons b bs => simp [stripTagsAux, hc, List.isEmpty, ih.1]
      · have : '>' ∉ c :: buf := by simp [Ne.symm hc, hbuf]
        simpa [stripTagsAux, hc] using ih.2 (c :: buf) this

theorem stripTagsAux_of_okTags (cs : List Char) (h : okTags cs = true) :
    stripTagsAux cs none = cs := by
  induction cs with
  | nil => rfl
  | cons c rest ih =>
    simp only [okTags, Bool.and_eq_true] at h
    by_cases hc : c = '<'
    · have hend : tagEnd rest = none := by
        have := h.1
        rw [if_pos hc] at this
        simpa [Option.isNone_iff_eq_none] using this
      rcases tagEnd_eq_none_cases rest hend with hnil | ⟨r, hr⟩ | hno
      · subst hnil
        simp [stripTagsAux, hc]
      · subst hr
        have hrest : stripTagsAux ('>' :: r) none = '>' :: r := ih h.2
        have hr2 : stripTagsAux r none = r := by
          simpa [stripTagsAux] using hrest
        simp [stripTagsAux, hc, hr2]
      · simp [stripTagsAux, hc, stripTagsAux_some_no_gt rest [] hno]
    · simp [stripTagsAux, hc, ih h.2]

/-- One list is obtained from the other by deleting whitespace characters or
replacing them with other whitespace characters, keeping every non-whitespace
character.  Collapsing runs of whitespace to single spaces is such an edit. -/
inductive WsRel : List Char → List Char → Prop where
  | nil : WsRel [] []
  | keep : ∀ {l m : List Char} (c : Char), isPySpace c = false →
      WsRel l m → WsRel (c :: l) (c :: m)
  | subst : ∀ {l m : List Char} (w x : Char), isPySpace w = true →
      isPySpace x = true → WsRel l m → WsRel (w :: l) (x :: m)
  | drop : ∀ {l m : List Char} (w : Char), isPySpace w = true →
      WsRel l m → WsRel (w :: l) m

theorem WsRel_nil_left (m : List Char) (h : WsRel [] m) : m = [] := by
  cases h
  rfl

theorem WsRel_no_gt (l m : List Char) (h : WsRel l m) (hl : '>' ∉ l) : '>' ∉ m := by
  induction h with
  | nil => exact hl
  | keep c hc h ih =>
    simp only [List.mem_cons, not_or] at hl ⊢
    exact ⟨hl.1, ih hl.2⟩
  | subst w x hw hx h ih =>
    simp only [List.mem_cons, not_or] at hl ⊢
    refine ⟨fun he => ?_, ih hl.2⟩
    rw [← he] at hx
    simp [isPySpace] at hx
  | drop w hw h ih =>
    simp only [List.mem_cons, not_or] at hl
    exact ih hl.2

theorem WsRel_gt_head (l m : List Char) (h : WsRel ('>' :: l) m) :
    ∃ m', m = '>' :: m' ∧ WsRel l m' := by
  cases h with
  | keep c hc h => exact ⟨_, rfl, h⟩
  | subst w x hw hx h => simp [isPySpace] at hw
  | drop w hw h => simp [isPySpace] at hw

theorem tagEnd_none_WsRel (l m : List Char) (h : WsRel l m) (hl : tagEnd l = none) :
    tagEnd m = none := by
  rcases tagEnd_eq_none_cases l hl with hnil | ⟨r, hr⟩ | hno
  · subst hnil
    rw [WsRel_nil_left m h]
    rfl
  · subst hr
    obtain ⟨m', hm, _⟩ := WsRel_gt_head r m h
    subst hm
    rfl
  · exact tagEnd_none_of_no_gt m (WsRel_no_gt l m h hno)

theorem okTags_WsRel (l m : List Char) (h : WsRel l m) (hok : okTags l = true) :
    okTags m = true := by
  induction h with
  | nil => rfl
  | keep c hc h ih =>
    simp only [okTags, Bool.and_eq_true] at hok ⊢
    refine ⟨?_, ih hok.2⟩
    by_cases hlt : c = '<'
    · rw [if_pos hlt]
      have := hok.1
      rw [if_pos hlt] at this
      simp only [Option.isNone_iff_eq_none] at this ⊢
      exact tagEnd_none_WsRel _ _ h this
    · rw [if_neg hlt]
  | subst w x hw hx h ih =>
    have hwlt : w ≠ '<' := by
      intro he
      rw [he] at hw
      simp [isPySpace] at hw
    have hxlt : x ≠ '<' := by
      intro he
      rw [he] at hx
      simp [isPySpace] at hx
    simp only [okTags, Bool.and_eq_true, if_neg hwlt] at hok
    simp only [okTags, Bool.and_eq_true, if_neg hxlt]
    exact ⟨trivial, ih hok.2⟩
  | drop w hw h ih =>
    have hwlt : w ≠ '<' := by
      intro he
      rw [he] at hw
      simp [isPySpace] at hw
    simp only [okTags, Bool.and_eq_true, if_neg hwlt] at hok
    exact ih hok.2

theorem WsRel_refl_no_ws (p : List Char) (hp : ∀ c ∈ p, isPySpace c = false) :
    WsRel p p := by
  induction p with
  | nil => exact WsRel.nil
  | cons c rest ih =>
    exact WsRel.keep c (hp c (by simp))
      (ih (fun x hx => hp x (by simp [hx])))

theorem WsRel_append_left (p l m : List Char) (hp : ∀ c ∈ p, isPySpace c = false)
    (h : WsRel l m) : WsRel (p ++ l) (p ++ m) := by
  induction p with
  | nil => simpa using h
  | cons c rest ih =>
    exact WsRel.keep c (hp c (by simp))
      (ih (fun x hx => hp x (by simp [hx])))

theorem WsRel_all_ws_nil (l : List Char) (hl : ∀ c ∈ l, isPySpace c = true) :
    WsRel l [] := by
  induction l with
  | nil => exact WsRel.nil
  | cons c rest ih =>
    exact WsRel.drop c (hl c (by simp))
      (ih (fun x hx => hl x (by simp [hx])))

theorem pySplit_ne_nil (cs : List Char) :
    ∀ acc, acc ≠ [] → pySplit cs acc ≠ [] := by
  induction cs with
  | nil =>
    intro acc hacc
    simp [pySplit, hacc]
  | cons c rest ih =>
    intro acc hacc
    by_cases hc : isPySpace c
    · simp [pySplit, hc, List.isEmpty_iff, hacc]
    · exact fun h => ih (c :: acc) (by simp) (by simpa [pySplit, hc] using h)

theorem pySplit_nil_all_ws (cs : List Char) (h : pySplit cs [] = []) :
    ∀ c ∈ cs, isPySpace c = true := by
  induction cs with
  | nil => simp
  | cons c rest ih =>
    by_cases hc : isPySpace c
    · intro x hx
      rcases List.mem_cons.mp hx with hx | hx
      · rw [hx]; exact hc
      · exact ih (by simpa [pySplit, hc] using h) x hx
    · exfalso
      exact pySplit_ne_nil rest [c] (by simp) (by simpa [pySplit, hc] using h)

theorem pySplit_words (cs : List Char) :
    ∀ acc, (∀ c ∈ acc, isPySpace c = false) →
      ∀ w ∈ pySplit cs acc, w ≠ [] ∧ ∀ c ∈ w, isPySpace c = false := by
  induction cs with
  | nil =>
    intro acc hacc w hw
    cases acc with
    | nil => simp [pySplit] at hw
    | cons a as =>
      simp only [pySplit, List.isEmpty_cons, if_neg Bool.false_ne_true] at hw
      simp only [List.mem_singleton] at hw
      subst hw
      refine ⟨by simp, fun c hc => hacc c (List.mem_reverse.mp hc)⟩
  | cons c rest ih =>
    intro acc hacc w hw
    by_cases hc : isPySpace c
    · cases acc with
      | nil =>
        exact ih [] (by simp) w (by simpa [pySplit, hc] using hw)
      | cons a as =>
        simp only [pySplit, hc, if_pos, List.isEmpty_cons, if_neg Bool.false_ne_true,
          List.mem_cons] at hw
        rcases hw with hw | hw
        · subst hw
          refine ⟨by simp, fun x hx => hacc x (List.mem_reverse.mp hx)⟩
        · exact ih [] (by simp) w hw
    · refine ih (c :: acc) ?_ w (by simpa [pySplit, hc] using hw)
      intro x hx
      rcases List.mem_cons.mp hx with hx | hx
      · rw [hx]; simpa using hc
      · exact hacc x hx

theorem pySplit_skip_word (w : List Char) :
    ∀ (cs acc : List Char), (∀ c ∈ w, isPySpace c = false) →
      pySplit (w ++ cs) acc = pySplit cs (w.reverse ++ acc) := by
  induction w with
  | nil => intro cs acc _; simp
  | cons c rest ih =>
    intro cs acc h
    have hc : isPySpace c = false := h c (by simp)
    simp only [List.cons_append, pySplit, hc, Bool.false_eq_true, if_false,
      List.append_eq]
    rw [ih cs (c :: acc) (fun x hx => h x (by simp [hx]))]
    simp

theorem pySplit_joinWords (ws : List (List Char))
    (h : ∀ w ∈ ws, w ≠ [] ∧ ∀ c ∈ w, isPySpace c = false) :
    pySplit (joinWords ws) [] = ws := by
  induction ws with
  | nil => rfl
  | cons w vs ih =>
    cases vs with
    | nil =>
      have hw := h w (by simp)
      have : joinWords [w] = w := rfl
      rw [this]
      have := pySplit_skip_word w [] [] hw.2
      rw [List.append_nil] at this
      rw [this]
      simp [pySplit, List.isEmpty_iff, hw.1]
    | cons v vs2 =>
      have hw := h w (by simp)
      simp only [joinWords]
      rw [pySplit_skip_word w (' ' :: joinWords (v :: vs2)) [] hw.2]
      have hrevne : w.reverse ++ [] ≠ [] := by
        simp [hw.1]
      simp only [List.append_nil] at hrevne ⊢
      have hsp : isPySpace ' ' = true := by decide
      simp only [pySplit, hsp, if_pos, List.isEmpty_iff, if_neg hrevne]
      rw [ih (fun x hx => h x (by simp [hx]))]
      simp

theorem WsRel_pySplit_joinWords (cs : List Char) :
    ∀ acc, (∀ c ∈ acc, isPySpace c = false) →
      WsRel (acc.reverse ++ cs) (joinWords (pySplit cs acc)) := by
  induction cs with
  | nil =>
    intro acc hacc
    cases acc with
    | nil => exact WsRel.nil
    | cons a as =>
      simp only [pySplit, List.isEmpty_cons, if_neg Bool.false_ne_true, List.append_nil]
      exact WsRel_refl_no_ws _ (fun c hc => hacc c (List.mem_reverse.mp hc))
  | cons c rest ih =>
    intro acc hacc
    by_cases hc : isPySpace c
    · cases acc with
      | nil =>
        simp only [List.reverse_nil, List.nil_append, pySplit, hc, if_pos,
          List.isEmpty_nil]
        exact WsRel.drop c hc (by simpa using ih [] (by simp))
      | cons a as =>
        simp only [pySplit, hc, if_pos, List.isEmpty_cons, if_neg Bool.false_ne_true]
        have haccrev : ∀ x ∈ (a :: as).reverse, isPySpace x = false := by
          intro x hx
          exact hacc x (List.mem_reverse.mp hx)
        cases hsp : pySplit rest [] with
        | nil =>
          have hall : ∀ x ∈ rest, isPySpace x = true := pySplit_nil_all_ws rest hsp
          have : joinWords [(a :: as).reverse] = (a :: as).reverse := rfl
          rw [this]
          have h2 : WsRel (c :: rest) [] :=
            WsRel.drop c hc (WsRel_all_ws_nil rest hall)
          have := WsRel_append_left (a :: as).reverse (c :: rest) [] haccrev h2
          simpa using this
        | cons v vs =>
          simp only [joinWords]
          refine WsRel_append_left (a :: as).reverse _ _ haccrev ?_
          refine WsRel.subst c ' ' hc (by decide) ?_
          have := ih [] (by simp)
          rw [hsp] at this
          simpa using this
    · have hne : isPySpace c = false := by simpa using hc
      simp only [pySplit, hne, Bool.false_eq_true, if_false]
      have := ih (c :: acc) (by
        intro x hx
        rcases List.mem_cons.mp hx with hx | hx
        · rw [hx]; exact hne
        · exact hacc x hx)
      simpa using this

theorem stripTagsAux_buffer (inner : List Char) :
    ∀ (cs buf : List Char), (∀ c ∈ inner, c ≠ '>') →
      stripTagsAux (inner ++ cs) (some buf) =
        stripTagsAux cs (some (inner.reverse ++ buf)) := by
  induction inner with
  | nil => intro cs buf _; simp
  | cons c rest ih =>
    intro cs buf h
    have hc : c ≠ '>' := h c (by simp)
    rw [List.cons_append]
    have hstep : stripTagsAux (c :: (rest ++ cs)) (some buf) =
        stripTagsAux (rest ++ cs) (some (c :: buf)) := by
      simp [stripTagsAux, hc]
    rw [hstep, ih cs (c :: buf) (fun x hx => h x (by simp [hx]))]
    simp

/-- C8: clean_email_content removes every angle-bracket tag matched by the
pattern <...> whatever its name (a whole bracketed span with at least one
non-bracket character vanishes from the tag-stripping pass), maps the empty
string to the empty string, and on the claim instance collapses internal
whitespace runs and trims, turning the tagged greeting into "Hello World". -/
theorem clean_email_content_spec :
    (∀ (inner rest : List Char), inner ≠ [] → (∀ c ∈ inner, c ≠ '>') →
      stripTags ('<' :: (inner ++ '>' :: rest)) = stripTags rest) ∧
    clean_email_content "" = "" ∧
    clean_email_content "<p>Hello   \n World</p>" = "Hello World" := by
  refine ⟨?_, by decide, by decide⟩
  intro inner rest hne hno
  show stripTagsAux ('<' :: (inner ++ '>' :: rest)) none = stripTagsAux rest none
  have h1 : stripTagsAux ('<' :: (inner ++ '>' :: rest)) none =
      stripTagsAux (inner ++ '>' :: rest) (some []) := by
    simp [stripTagsAux]
  rw [h1, stripTagsAux_buffer inner ('>' :: rest) [] hno]
  have hrev : inner.reverse ≠ [] := by simp [hne]
  simp only [List.append_nil]
  simp [stripTagsAux, List.isEmpty_iff, hrev]

/-- Witness for clean_email_content_spec: the tag removal applied to the
concrete tag <p> followed by the letter x. -/
theorem clean_email_content_spec_witness :
    stripTags ('<' :: (['p'] ++ '>' :: ['x'])) = stripTags ['x'] ∧
    clean_email_content "" = "" :=
  ⟨clean_email_content_spec.1 ['p'] ['x'] (by decide) (by decide),
   clean_email_content_spec.2.1⟩

/-- C9: clean_email_content is idempotent: its output contains no remaining
tag match and no collapsible whitespace, so normalising a second time is the
identity. -/
theorem clean_email_content_idempotent (s : String) :
    clean_email_content (clean_email_content s) = clean_email_content s := by
  have hok : okTags (stripTagsAux s.data none) = true := (okTags_stripTagsAux s.data).1
  have hWs : WsRel (stripTagsAux s.data none)
      (joinWords (pySplit (stripTagsAux s.data none) [])) := by
    simpa using WsRel_pySplit_joinWords (stripTagsAux s.data none) [] (by simp)
  have hokr : okTags (joinWords (pySplit (stripTagsAux s.data none) [])) = true :=
    okTags_WsRel _ _ hWs hok
  have hfix : stripTagsAux (joinWords (pySplit (stripTagsAux s.data none) [])) none =
      joinWords (pySplit (stripTagsAux s.data none) []) :=
    stripTagsAux_of_okTags _ hokr
  have hsplit : pySplit (joinWords (pySplit (stripTagsAux s.data none) [])) [] =
      pySplit (stripTagsAux s.data none) [] :=
    pySplit_joinWords _
      (fun w hw => pySplit_words (stripTagsAux s.data none) [] (by simp) w hw)
  show String.mk (joinWords (pySplit (stripTagsAux
      (String.mk (joinWords (pySplit (stripTagsAux s.data none) []))).data none) [])) =
    String.mk (joinWords (pySplit (stripTagsAux s.data none) []))
  rw [show (String.mk (joinWords (pySplit (stripTagsAux s.data none) []))).data =
      joinWords (pySplit (stripTagsAux s.data none) []) from rfl]
  rw [hfix, hsplit]
